import Mathlib

/-!
# zap-applicationinsights-writer: translation and filtering contract

A shallow embedding of `zap_appinsights.go`: the level filter, the level
encoder, the record translator `BuildTrace`, the sink operation `Write` and
the constructor `NewAppInsightsCore`.

Go values are embedded as follows.

* `zapcore.Level` (an `int8`) and `contracts.SeverityLevel` (an `int`) are
  structures around an integer; their named constants carry the numeric values
  the libraries give them.
* A Go `string` is a Lean `String` and `len` is its UTF-8 byte count.
* `map[string]T` is an association list `List (String × T)` whose keys are
  pairwise distinct (`GoMap.WF`); `for k, v := range m` visits the list in
  order, and since theorems quantify over every such list they cover every
  iteration order.
* `interface{}` is the tagged union `Value`.
* A run-time panic is the `Except.error` branch of the result.
-/

namespace ZapAppInsights

/-! ## zapcore.Level -/

/-- The type `zapcore.Level`, a signed 8-bit integer. -/
structure Level where
  n : Int
deriving DecidableEq, Repr

/-- Constant `zapcore.DebugLevel` (`iota - 1`). -/
def DebugLevel : Level := ⟨-1⟩
/-- Constant `zapcore.InfoLevel`, the zero value of `Level`. -/
def InfoLevel : Level := ⟨0⟩
/-- Constant `zapcore.WarnLevel`. -/
def WarnLevel : Level := ⟨1⟩
/-- Constant `zapcore.ErrorLevel`. -/
def ErrorLevel : Level := ⟨2⟩
/-- Constant `zapcore.DPanicLevel`. -/
def DPanicLevel : Level := ⟨3⟩
/-- Constant `zapcore.PanicLevel`. -/
def PanicLevel : Level := ⟨4⟩
/-- Constant `zapcore.FatalLevel`. -/
def FatalLevel : Level := ⟨5⟩

/-- The zero value of `zapcore.Level`, what an unset `Config.MinLogLevel` holds. -/
def Level.zero : Level := ⟨0⟩

/-- Method `func (l Level) Enabled(lvl Level) bool { return lvl >= l }` of zapcore. -/
def Level.Enabled (l lvl : Level) : Bool := decide (lvl.n ≥ l.n)

/-- The variable `defaultLevels`, sorted from highest to lowest. -/
def defaultLevels : List Level :=
  [FatalLevel, PanicLevel, DPanicLevel, ErrorLevel, WarnLevel, InfoLevel, DebugLevel]

/-- The function `minLogLevelFilter`: the closure `func(lvl) bool { return minLevel.Enabled(lvl) }`. -/
def minLogLevelFilter (minLevel : Level) : Level → Bool :=
  fun lvl => minLevel.Enabled lvl

/-! ## contracts.SeverityLevel -/

/-- The type `contracts.SeverityLevel`, an `int`. -/
structure SeverityLevel where
  n : Int
deriving DecidableEq, Repr

/-- Constant `contracts.Verbose` (also `appinsights.Verbose`), the zero value. -/
def Verbose : SeverityLevel := ⟨0⟩
/-- Constant `contracts.Information`. -/
def Information : SeverityLevel := ⟨1⟩
/-- Constant `contracts.Warning`. -/
def Warning : SeverityLevel := ⟨2⟩
/-- Constant `contracts.Error`. -/
def Error : SeverityLevel := ⟨3⟩
/-- Constant `contracts.Critical`. -/
def Critical : SeverityLevel := ⟨4⟩

/-- The zero value of `contracts.SeverityLevel`. -/
def SeverityLevel.zero : SeverityLevel := ⟨0⟩

/-- Method `func (value SeverityLevel) String() string` of the contracts package. -/
def SeverityLevel.String (value : SeverityLevel) : String :=
  if value.n = 0 then "Verbose"
  else if value.n = 1 then "Information"
  else if value.n = 2 then "Warning"
  else if value.n = 3 then "Error"
  else if value.n = 4 then "Critical"
  else "<unknown SeverityLevel>"

/-! ## Go maps -/

/-- A Go `map[string]T` as an association list. -/
abbrev GoMap (α : Type) := List (String × α)

/-- Well-formedness of a map: no key occurs twice. -/
def GoMap.WF {α : Type} (m : GoMap α) : Prop := (m.map Prod.fst).Nodup

instance {α : Type} (m : GoMap α) : Decidable (GoMap.WF m) := by
  unfold GoMap.WF; infer_instance

/-- The index expression `v, ok := m[k]`: `none` when the key is absent. -/
def GoMap.get? {α : Type} (m : GoMap α) (k : String) : Option α :=
  match m with
  | [] => none
  | (k', v) :: rest => if k' = k then some v else GoMap.get? rest k

/-- The assignment `m[k] = v`: overwrite the entry of `k`, or add one. -/
def GoMap.set {α : Type} (m : GoMap α) (k : String) (v : α) : GoMap α :=
  match m with
  | [] => [(k, v)]
  | (k', v') :: rest => if k' = k then (k, v) :: rest else (k', v') :: GoMap.set rest k v

/-- The variable `levelMap`. -/
def levelMap : GoMap SeverityLevel :=
  [("Critical", Critical),
   ("Error", Error),
   ("Warning", Warning),
   ("Information", Information),
   ("Verbose", Verbose)]

/-- The index expression `levelMap[s]`: the zero value for an absent key. -/
def levelMapIndex (s : String) : SeverityLevel :=
  (GoMap.get? levelMap s).getD SeverityLevel.zero

/-! ## The level encoder -/

/-- The function `appInsightsLevelEncoder`. The encoder `enc` is the list of
strings appended so far; `enc.AppendString(s)` adds `s` at its end. A level
outside the seven cases of the `switch` appends nothing. -/
def appInsightsLevelEncoder (l : Level) (enc : List String) : List String :=
  if l = DebugLevel then enc ++ [Verbose.String]
  else if l = InfoLevel then enc ++ [Information.String]
  else if l = WarnLevel then enc ++ [Warning.String]
  else if l = ErrorLevel then enc ++ [Error.String]
  else if l = DPanicLevel then enc ++ [Critical.String]
  else if l = PanicLevel then enc ++ [Critical.String]
  else if l = FatalLevel then enc ++ [Critical.String]
  else enc

/-! ## Dynamically typed values -/

/-- A `float64`: a finite value `(-1)^neg * mant * 2^exp`, an infinity or a NaN. -/
inductive Float64 where
  | finite (neg : Bool) (mant : Nat) (exp : Int)
  | inf (neg : Bool)
  | nan
deriving DecidableEq, Repr

/-- A value of type `interface{}`, by dynamic type. The first seven are the nil
interface, `bool`, `int`, `float64`, `string`, `[]interface{}` and
`map[string]interface{}`: what `json.Unmarshal` produces, and `int`. The
exported `BuildTrace` can be handed any other dynamic type as well: `int64`,
`uint` and `float32` stand for the other numeric types (a `float32` holds its
value as a `Float64`), and `other` is a value of any remaining type, by the
name of that type (`int32`, `json.Number`, a struct, ...). -/
inductive Value where
  | null
  | bool (b : Bool)
  | int (val : Int)
  | float64 (val : Float64)
  | str (val : String)
  | array (xs : List Value)
  | object (kvs : List (String × Value))
  | int64 (val : Int)
  | uint (val : Nat)
  | float32 (val : Float64)
  | other (typeName : String)

/-- The name the Go runtime prints for the dynamic type of a value. -/
def Value.typeName : Value → String
  | .null => "nil"
  | .bool _ => "bool"
  | .int _ => "int"
  | .float64 _ => "float64"
  | .str _ => "string"
  | .array _ => "[]interface \x7b\x7d"
  | .object _ => "map[string]interface \x7b\x7d"
  | .int64 _ => "int64"
  | .uint _ => "uint"
  | .float32 _ => "float32"
  | .other typeName => typeName

/-- The index expression `data[k]` on a `map[string]interface{}`: the nil
interface for an absent key. -/
def dataIndex (data : GoMap Value) (k : String) : Value :=
  (GoMap.get? data k).getD Value.null

/-- The single-value type assertion `v.(string)`: the string when the dynamic
type of `v` is `string`, a run-time panic otherwise (also for the nil interface). -/
def assertString (v : Value) : Except String String :=
  match v with
  | .str s => .ok s
  | w => .error ("interface conversion: interface \x7b\x7d is " ++ w.typeName ++ ", not string")

/-- The conversion `string(val)` of an `int`: the UTF-8 encoding of the code
point `val`, and of U+FFFD when `val` is not a valid code point. -/
def stringOfInt (val : Int) : String :=
  if 0 ≤ val ∧ val.toNat.isValidChar then String.singleton (Char.ofNat val.toNat)
  else String.singleton (Char.ofNat 0xFFFD)

/-- The integer nearest to `num / den`, a tie going to the even one. -/
def roundHalfEven (num den : Nat) : Nat :=
  let q := num / den
  let r := num % den
  if 2 * r < den then q
  else if den < 2 * r then q + 1
  else if q % 2 = 0 then q else q + 1

/-- The magnitude `mant * 2^exp` in units of `10^(-prec)`, rounded to nearest even. -/
def scaledDecimal (mant : Nat) (exp : Int) (prec : Nat) : Nat :=
  match exp with
  | .ofNat e => mant * 2 ^ e * 10 ^ prec
  | .negSucc e => roundHalfEven (mant * 10 ^ prec) (2 ^ (e + 1))

/-- The decimal digits of `n`, padded with zeros on the left to `width` characters. -/
def zeroPad (width n : Nat) : String :=
  let ds := Nat.toDigits 10 n
  String.mk (List.replicate (width - ds.length) '0' ++ ds)

/-- The call `strconv.FormatFloat(val, 'f', prec, 64)`: fixed-point notation
with `prec` digits after the point, the exact value rounded to nearest even. -/
def FormatFloat (val : Float64) (prec : Nat) : String :=
  match val with
  | .nan => "NaN"
  | .inf false => "+Inf"
  | .inf true => "-Inf"
  | .finite neg mant exp =>
    let scaled := scaledDecimal mant exp prec
    (if neg then "-" else "") ++ toString (scaled / 10 ^ prec) ++
      (if prec = 0 then "" else "." ++ zeroPad prec (scaled % 10 ^ prec))

/-! ## Telemetry events -/

/-- The struct `appinsights.BaseTelemetry`, without its timestamp. -/
structure BaseTelemetry where
  Tags : GoMap String
  Properties : GoMap String
deriving DecidableEq, Repr

/-- The struct `appinsights.TraceTelemetry`. -/
structure TraceTelemetry where
  BaseTelemetry : BaseTelemetry
  Message : String
  SeverityLevel : SeverityLevel
deriving DecidableEq, Repr

/-- The constructor `appinsights.NewTraceTelemetry`: both maps start empty. -/
def NewTraceTelemetry (message : String) (severityLevel : SeverityLevel) : TraceTelemetry :=
  { BaseTelemetry := { Tags := [], Properties := [] },
    Message := message,
    SeverityLevel := severityLevel }

/-- The assignment `trace.BaseTelemetry.Properties[k] = s`. -/
def TraceTelemetry.setProperty (trace : TraceTelemetry) (k s : String) : TraceTelemetry :=
  { trace with BaseTelemetry :=
      { trace.BaseTelemetry with Properties := GoMap.set trace.BaseTelemetry.Properties k s } }

/-- The body of the `range` loop of `BuildTrace` for one entry `k, v`. -/
def buildTraceStep (trace : TraceTelemetry) (kv : String × Value) : TraceTelemetry :=
  if kv.1 = "msg" ∨ kv.1 = "level" then trace
  else
    match kv.2 with
    | .int val => trace.setProperty kv.1 (stringOfInt val)
    | .str val => trace.setProperty kv.1 val
    | .float64 val => trace.setProperty kv.1 (FormatFloat val 6)
    | _ => trace

/-- The function `BuildTrace`. -/
def BuildTrace (data : GoMap Value) : Except String TraceTelemetry :=
  match assertString (dataIndex data "msg") with
  | .error e => .error e
  | .ok message =>
    match assertString (dataIndex data "level") with
    | .error e => .error e
    | .ok lv =>
      let level := levelMapIndex lv
      let trace := NewTraceTelemetry message level
      .ok (data.foldl buildTraceStep trace)

/-- The builtin `len` on a string: its number of bytes. -/
def len (s : String) : Nat := s.utf8ByteSize

/-! ## The sink: Write -/

/-- What one call of `Write` produces: the two results `(n, err)` and the event
handed to `client.Track` (in a goroutine of its own, whose completion `Write`
does not wait for). -/
structure WriteResult where
  n : Nat
  err : Option String
  tracked : TraceTelemetry
deriving DecidableEq, Repr

/-- The method `(*AppInsightsConfig).Write`. The decoder `json.Unmarshal` into a
`map[string]interface{}` is the parameter `unmarshal`; a decoding error and a
panic of `BuildTrace` both end the call in a panic. -/
def Write (unmarshal : List Nat → Except String (GoMap Value)) (p : List Nat) :
    Except String WriteResult :=
  match unmarshal p with
  | .error err => .error err
  | .ok data =>
    match BuildTrace data with
    | .error e => .error e
    | .ok trace => .ok { n := len trace.Message, err := none, tracked := trace }

/-! ## Construction -/

/-- The struct `Config`; `MaxBatchInterval` is a `time.Duration` in nanoseconds. -/
structure Config where
  InstrumentationKey : String
  EndpointURL : String
  MinLogLevel : Level
  MaxBatchSize : Int
  MaxBatchInterval : Int

/-- The struct `appinsights.TelemetryConfiguration`. -/
structure TelemetryConfiguration where
  InstrumentationKey : String
  EndpointUrl : String
  MaxBatchSize : Int
  MaxBatchInterval : Int
deriving DecidableEq, Repr

/-- The constructor `appinsights.NewTelemetryConfiguration` with the defaults of the SDK. -/
def NewTelemetryConfiguration (instrumentationKey : String) : TelemetryConfiguration :=
  { InstrumentationKey := instrumentationKey,
    EndpointUrl := "https://dc.services.visualstudio.com/v2/track",
    MaxBatchSize := 1024,
    MaxBatchInterval := 10 * 1000000000 }

/-- A telemetry client, by the configuration it was built from. -/
structure TelemetryClient where
  config : TelemetryConfiguration
deriving DecidableEq, Repr

/-- The constructor `appinsights.NewTelemetryClientFromConfig`. -/
def NewTelemetryClientFromConfig (config : TelemetryConfiguration) : TelemetryClient :=
  { config := config }

/-- The struct `AppInsightsConfig`, the sink. -/
structure AppInsightsConfig where
  client : TelemetryClient
  async : Bool
  filters : GoMap (Value → Value)

/-- The function `New`: the sink itself, seen as a `zapcore.WriteSyncer`. -/
def New (appInsightsConfig : AppInsightsConfig) : AppInsightsConfig := appInsightsConfig

/-- The part of `zapcore.EncoderConfig` this package reads or sets. -/
structure EncoderConfig where
  MessageKey : String
  LevelKey : String
  EncodeLevel : Option (Level → List String → List String)

/-- The constructor `zap.NewProductionEncoderConfig`; the level encoder it
installs is left out, since `NewAppInsightsCore` replaces it. -/
def NewProductionEncoderConfig : EncoderConfig :=
  { MessageKey := "msg", LevelKey := "level", EncodeLevel := none }

/-- A `zapcore.Field`, by key and value. -/
structure Field where
  Key : String
  Interface : Value

/-- A `zap.Option`; `zap.Fields(fs...)` is the only one built here. -/
structure ZapOption where
  Fields : List Field

/-- What `zapcore.NewCore(enc, ws, enab)` holds. -/
structure Core where
  enc : EncoderConfig
  out : AppInsightsConfig
  LevelEnabler : Level → Bool

/-- The three results of `NewAppInsightsCore`; `none` is Go's `nil`. -/
structure CoreResult where
  core : Option Core
  option : Option ZapOption
  err : Option String

/-- The function `NewAppInsightsCore`. -/
def NewAppInsightsCore (conf : Config) (fs : List Field) : CoreResult :=
  let logLevelFilter := minLogLevelFilter conf.MinLogLevel
  let config := { NewProductionEncoderConfig with EncodeLevel := some appInsightsLevelEncoder }
  let jsonEncode := config
  let option : ZapOption := { Fields := fs }
  if conf.InstrumentationKey = "" then
    { core := none, option := none,
      err := some "InstrumentationKey is required and missing from configuration" }
  else
    let telemetryConf := NewTelemetryConfiguration conf.InstrumentationKey
    let telemetryConf :=
      if conf.MaxBatchSize > 0 then { telemetryConf with MaxBatchSize := conf.MaxBatchSize }
      else telemetryConf
    let telemetryConf :=
      if conf.MaxBatchInterval > 0 then
        { telemetryConf with MaxBatchInterval := conf.MaxBatchInterval }
      else telemetryConf
    let telemetryConf :=
      if conf.EndpointURL ≠ "" then { telemetryConf with EndpointUrl := conf.EndpointURL }
      else telemetryConf
    let telemetryClient := NewTelemetryClientFromConfig telemetryConf
    let appInsightsConfig : AppInsightsConfig :=
      { client := telemetryClient, async := false, filters := [] }
    let syncer := New appInsightsConfig
    { core := some { enc := jsonEncode, out := syncer, LevelEnabler := logLevelFilter },
      option := some option,
      err := none }

/-! ## A reference JSON decoder

The decoder of `encoding/json` is not part of this package; `Write` takes it as
a parameter. `jsonUnmarshal` below is a reference decoder for the case at
hand, `json.Unmarshal(p, &data)` with `data` a nil `map[string]interface{}`:
the grammar of RFC 8259, numbers decoded to the nearest `float64`, strings
coerced to well-formed UTF-8. The text of an error is a label only. -/

/-- The conversion `[]byte(s)`: the UTF-8 bytes of a string. -/
def bytesOf (s : String) : List Nat :=
  (s.data.flatMap String.utf8EncodeChar).map UInt8.toNat

/-- The white space of JSON: space, tab, carriage return, line feed. -/
def isSpace (b : Nat) : Bool := b = 0x20 || b = 0x09 || b = 0x0D || b = 0x0A

/-- Drop leading white space. -/
def skipSpace : List Nat → List Nat
  | [] => []
  | b :: rest => if isSpace b then skipSpace rest else b :: rest

/-- The value of a hexadecimal digit. -/
def hexVal (b : Nat) : Option Nat :=
  if 0x30 ≤ b ∧ b ≤ 0x39 then some (b - 0x30)
  else if 0x61 ≤ b ∧ b ≤ 0x66 then some (b - 0x61 + 10)
  else if 0x41 ≤ b ∧ b ≤ 0x46 then some (b - 0x41 + 10)
  else none

/-- The code unit of an escape `\uXXXX` at the head of the input. -/
def getu4 (s : List Nat) : Option Nat :=
  match s with
  | 0x5C :: 0x75 :: a :: b :: c :: d :: _ =>
    match hexVal a, hexVal b, hexVal c, hexVal d with
    | some x, some y, some z, some w => some (((x * 16 + y) * 16 + z) * 16 + w)
    | _, _, _, _ => none
  | _ => none

/-- Whether a byte is a UTF-8 continuation byte within the given bounds. -/
def inRange (lo hi b : Nat) : Bool := decide (lo ≤ b ∧ b ≤ hi)

/-- The function `utf8.DecodeRune` on a non-empty input: the code point at the
head and its width in bytes, or U+FFFD and width 1 for an invalid encoding. -/
def decodeRune (s : List Nat) : Nat × Nat :=
  match s with
  | [] => (0xFFFD, 0)
  | b0 :: rest =>
    if b0 < 0x80 then (b0, 1)
    else if inRange 0xC2 0xDF b0 then
      match rest with
      | b1 :: _ => if inRange 0x80 0xBF b1 then ((b0 - 0xC0) * 64 + (b1 - 0x80), 2)
                   else (0xFFFD, 1)
      | _ => (0xFFFD, 1)
    else if inRange 0xE0 0xEF b0 then
      match rest with
      | b1 :: b2 :: _ =>
        let lo := if b0 = 0xE0 then 0xA0 else 0x80
        let hi := if b0 = 0xED then 0x9F else 0xBF
        if inRange lo hi b1 && inRange 0x80 0xBF b2 then
          (((b0 - 0xE0) * 64 + (b1 - 0x80)) * 64 + (b2 - 0x80), 3)
        else (0xFFFD, 1)
      | _ => (0xFFFD, 1)
    else if inRange 0xF0 0xF4 b0 then
      match rest with
      | b1 :: b2 :: b3 :: _ =>
        let lo := if b0 = 0xF0 then 0x90 else 0x80
        let hi := if b0 = 0xF4 then 0x8F else 0xBF
        if inRange lo hi b1 && inRange 0x80 0xBF b2 && inRange 0x80 0xBF b3 then
          ((((b0 - 0xF0) * 64 + (b1 - 0x80)) * 64 + (b2 - 0x80)) * 64 + (b3 - 0x80), 4)
        else (0xFFFD, 1)
      | _ => (0xFFFD, 1)
    else (0xFFFD, 1)

/-- The character of a code point, U+FFFD for a surrogate or a value out of range. -/
def runeChar (r : Nat) : Char :=
  if r.isValidChar then Char.ofNat r else Char.ofNat 0xFFFD

/-- The body of a string literal, after its opening quote: the decoded string
and the input after the closing quote. `acc` holds the characters so far, last first. -/
def parseString (fuel : Nat) (s : List Nat) (acc : List Char) :
    Except String (String × List Nat) :=
  match fuel with
  | 0 => .error "out of fuel"
  | fuel + 1 =>
    match s with
    | [] => .error "unexpected end of JSON input"
    | b :: rest =>
      if b = 0x22 then .ok (String.mk acc.reverse, rest)
      else if b = 0x5C then
        match rest with
        | [] => .error "unexpected end of JSON input"
        | c :: rest' =>
          if c = 0x22 then parseString fuel rest' (Char.ofNat 0x22 :: acc)
          else if c = 0x5C then parseString fuel rest' (Char.ofNat 0x5C :: acc)
          else if c = 0x2F then parseString fuel rest' (Char.ofNat 0x2F :: acc)
          else if c = 0x62 then parseString fuel rest' (Char.ofNat 0x08 :: acc)
          else if c = 0x66 then parseString fuel rest' (Char.ofNat 0x0C :: acc)
          else if c = 0x6E then parseString fuel rest' (Char.ofNat 0x0A :: acc)
          else if c = 0x72 then parseString fuel rest' (Char.ofNat 0x0D :: acc)
          else if c = 0x74 then parseString fuel rest' (Char.ofNat 0x09 :: acc)
          else if c = 0x75 then
            match getu4 s with
            | none => .error "invalid character in hexadecimal character escape"
            | some rr =>
              if 0xD800 ≤ rr ∧ rr < 0xE000 then
                match getu4 (rest'.drop 4) with
                | some rr1 =>
                  if rr < 0xDC00 ∧ 0xDC00 ≤ rr1 ∧ rr1 < 0xE000 then
                    parseString fuel (rest'.drop 10)
                      (runeChar ((rr - 0xD800) * 1024 + (rr1 - 0xDC00) + 0x10000) :: acc)
                  else parseString fuel (rest'.drop 4) (Char.ofNat 0xFFFD :: acc)
                | none => parseString fuel (rest'.drop 4) (Char.ofNat 0xFFFD :: acc)
              else parseString fuel (rest'.drop 4) (runeChar rr :: acc)
          else .error "invalid character in string escape code"
      else if b < 0x20 then .error "invalid character in string literal"
      else if b < 0x80 then parseString fuel rest (Char.ofNat b :: acc)
      else
        let rs := decodeRune s
        parseString fuel (s.drop rs.2) (runeChar rs.1 :: acc)

/-- The leading decimal digits of the input, as digit values, and the rest. -/
def takeDigits : List Nat → List Nat × List Nat
  | [] => ([], [])
  | b :: rest =>
    if 0x30 ≤ b ∧ b ≤ 0x39 then
      let r := takeDigits rest
      ((b - 0x30) :: r.1, r.2)
    else ([], b :: rest)

/-- The number a list of decimal digits denotes. -/
def digitsVal (ds : List Nat) : Nat := ds.foldl (fun a d => 10 * a + d) 0

/-- The position of the highest set bit of `n`, counted down from `fuel` halvings. -/
def log2Fuel (fuel n : Nat) : Nat :=
  match fuel with
  | 0 => 0
  | fuel + 1 => if n < 2 then 0 else log2Fuel fuel (n / 2) + 1

/-- The integer part of the binary logarithm of `n`, and 0 for `n = 0`. -/
def log2 (n : Nat) : Nat := log2Fuel n n

/-- The `float64` nearest to `num / den` for `den > 0`, a tie going to the even
mantissa; `none` when the rounded value is not finite. -/
def nearestFloat64 (neg : Bool) (num den : Nat) : Option Float64 :=
  if num = 0 then some (.finite neg 0 0)
  else
    let a : Int := log2 num
    let b : Int := log2 den
    let atLeast : Bool :=
      if b ≤ a then decide (den * 2 ^ (a - b).toNat ≤ num)
      else decide (den ≤ num * 2 ^ (b - a).toNat)
    let e : Int := if atLeast then a - b else a - b - 1
    let exp : Int := max (e - 52) (-1074)
    let mant : Nat :=
      if 0 ≤ exp then roundHalfEven num (den * 2 ^ exp.toNat)
      else roundHalfEven (num * 2 ^ (-exp).toNat) den
    let mant' : Nat := if mant = 2 ^ 53 then 2 ^ 52 else mant
    let exp' : Int := if mant = 2 ^ 53 then exp + 1 else exp
    if 971 < exp' then none else some (.finite neg mant' exp')

/-- The call `strconv.ParseFloat(s, 64)` on a well-formed literal with digits
`ds` (integer and fraction part together) and decimal exponent `e10`: the
nearest `float64` to `digitsVal ds * 10^e10`, `none` for a range error. -/
def parseFloat64 (neg : Bool) (ds : List Nat) (e10 : Int) : Option Float64 :=
  let d := digitsVal ds
  if d = 0 then some (.finite neg 0 0)
  else
    let nd : Int := (Nat.toDigits 10 d).length
    if 309 ≤ nd - 1 + e10 then none
    else if nd + e10 ≤ -325 then some (.finite neg 0 0)
    else if 0 ≤ e10 then nearestFloat64 neg (d * 10 ^ e10.toNat) 1
    else nearestFloat64 neg d (10 ^ (-e10).toNat)

/-- A number literal at the head of the input: its `float64` and the rest. -/
def parseNumber (s : List Nat) : Except String (Float64 × List Nat) :=
  let neg : Bool := s.head? = some 0x2D
  let s1 := if neg then s.drop 1 else s
  let ip := takeDigits s1
  if ip.1 = [] then .error "invalid character in numeric literal"
  else
    -- a leading zero is an integer part of its own
    let intDigits := if ip.1.head? = some 0 then [0] else ip.1
    let s2 := if ip.1.head? = some 0 then s1.drop 1 else ip.2
    let fp := if s2.head? = some 0x2E then takeDigits (s2.drop 1) else ([], s2)
    if s2.head? = some 0x2E ∧ fp.1 = [] then
      .error "invalid character after decimal point in numeric literal"
    else
      let hasExp : Bool := fp.2.head? = some 0x65 || fp.2.head? = some 0x45
      let s3 := if hasExp then fp.2.drop 1 else fp.2
      let expNeg : Bool := hasExp && s3.head? = some 0x2D
      let s4 := if hasExp && (s3.head? = some 0x2D || s3.head? = some 0x2B) then s3.drop 1 else s3
      let ep := if hasExp then takeDigits s4 else ([], s4)
      if hasExp ∧ ep.1 = [] then .error "invalid character in exponent of numeric literal"
      else
        let ev : Int := digitsVal ep.1
        let e10 : Int := (if expNeg then -ev else ev) - fp.1.length
        match parseFloat64 neg (intDigits ++ fp.1) e10 with
        | none => .error "json: cannot unmarshal number into Go value of type float64"
        | some f => .ok (f, ep.2)

/-- What the decoder is reading: one value, the rest of an array after `[` or
`,`, or the rest of an object after the opening brace or `,`. -/
inductive Mode where
  | value
  | elems (acc : List Value)
  | membs (acc : GoMap Value)

/-- The recursive-descent decoder. `depth` counts the arrays and objects that
are open; a repeated key keeps its last value. -/
def parse (fuel depth : Nat) (mode : Mode) (s : List Nat) : Except String (Value × List Nat) :=
  match fuel with
  | 0 => .error "out of fuel"
  | fuel + 1 =>
    match mode with
    | .value =>
      match skipSpace s with
      | [] => .error "unexpected end of JSON input"
      | b :: rest =>
        if b = 0x7B then
          if 10000 ≤ depth then .error "exceeded max depth"
          else
            match skipSpace rest with
            | 0x7D :: rest' => .ok (.object [], rest')
            | _ => parse fuel (depth + 1) (.membs []) rest
        else if b = 0x5B then
          if 10000 ≤ depth then .error "exceeded max depth"
          else
            match skipSpace rest with
            | 0x5D :: rest' => .ok (.array [], rest')
            | _ => parse fuel (depth + 1) (.elems []) rest
        else if b = 0x22 then
          match parseString (rest.length + 1) rest [] with
          | .error e => .error e
          | .ok (str, rest') => .ok (.str str, rest')
        else if b = 0x2D ∨ (0x30 ≤ b ∧ b ≤ 0x39) then
          match parseNumber (b :: rest) with
          | .error e => .error e
          | .ok (f, rest') => .ok (.float64 f, rest')
        else if (b :: rest).take 4 = [0x74, 0x72, 0x75, 0x65] then
          .ok (.bool true, rest.drop 3)
        else if (b :: rest).take 5 = [0x66, 0x61, 0x6C, 0x73, 0x65] then
          .ok (.bool false, rest.drop 4)
        else if (b :: rest).take 4 = [0x6E, 0x75, 0x6C, 0x6C] then
          .ok (.null, rest.drop 3)
        else .error "invalid character looking for beginning of value"
    | .elems acc =>
      match parse fuel depth .value s with
      | .error e => .error e
      | .ok (v, rest) =>
        match skipSpace rest with
        | [] => .error "unexpected end of JSON input"
        | c :: rest' =>
          if c = 0x2C then parse fuel depth (.elems (acc ++ [v])) rest'
          else if c = 0x5D then .ok (.array (acc ++ [v]), rest')
          else .error "invalid character after array element"
    | .membs acc =>
      match skipSpace s with
      | [] => .error "unexpected end of JSON input"
      | q :: rest =>
        if q = 0x22 then
          match parseString (rest.length + 1) rest [] with
          | .error e => .error e
          | .ok (key, rest1) =>
            match skipSpace rest1 with
            | [] => .error "unexpected end of JSON input"
            | c :: rest2 =>
              if c = 0x3A then
                match parse fuel depth .value rest2 with
                | .error e => .error e
                | .ok (v, rest3) =>
                  match skipSpace rest3 with
                  | [] => .error "unexpected end of JSON input"
                  | d :: rest4 =>
                    if d = 0x2C then parse fuel depth (.membs (GoMap.set acc key v)) rest4
                    else if d = 0x7D then .ok (.object (GoMap.set acc key v), rest4)
                    else .error "invalid character after object key:value pair"
              else .error "invalid character after object key"
        else .error "invalid character looking for beginning of object key string"

/-- The call `json.Unmarshal(p, &data)` for a nil `data` of type
`map[string]interface{}`: an object fills the map, `null` leaves it nil, and
any other value is a type error. -/
def jsonUnmarshal (p : List Nat) : Except String (GoMap Value) :=
  match parse (2 * p.length + 2) 0 .value p with
  | .error e => .error e
  | .ok (v, rest) =>
    match skipSpace rest with
    | _ :: _ => .error "invalid character after top-level value"
    | [] =>
      match v with
      | .object kvs => .ok kvs
      | .null => .ok []
      | _ => .error "json: cannot unmarshal into Go value of type map[string]interface \x7b\x7d"

/-- The string the type switch of `BuildTrace` stores for a value, `none` for a
value of a dynamic type the switch has no case for. -/
def propertyString : Value → Option String
  | .int val => some (stringOfInt val)
  | .str val => some val
  | .float64 val => some (FormatFloat val 6)
  | _ => none

/-! ## Lemmas on maps and on the loop of BuildTrace -/

theorem GoMap.get?_set {α : Type} (m : GoMap α) (k k' : String) (v : α) :
    GoMap.get? (GoMap.set m k v) k' = if k = k' then some v else GoMap.get? m k' := by
  induction m with
  | nil => simp [GoMap.set, GoMap.get?]
  | cons hd tl ih =>
    obtain ⟨a, b⟩ := hd
    by_cases h : a = k
    · subst h
      by_cases h' : a = k' <;> simp [GoMap.set, GoMap.get?, h']
    · by_cases h' : a = k'
      · subst h'
        simp [GoMap.set, GoMap.get?, h, Ne.symm h]
      · simp [GoMap.set, GoMap.get?, h, h', ih]

theorem GoMap.get?_eq_none {α : Type} (m : GoMap α) (k : String)
    (h : k ∉ m.map Prod.fst) : GoMap.get? m k = none := by
  induction m with
  | nil => rfl
  | cons hd tl ih =>
    obtain ⟨a, b⟩ := hd
    simp only [List.map_cons, List.mem_cons, not_or] at h
    simp [GoMap.get?, Ne.symm h.1, ih h.2]

theorem buildTraceStep_Properties (trace : TraceTelemetry) (kv : String × Value) :
    (buildTraceStep trace kv).BaseTelemetry.Properties =
      if kv.1 = "msg" ∨ kv.1 = "level" then trace.BaseTelemetry.Properties
      else match propertyString kv.2 with
        | some s => GoMap.set trace.BaseTelemetry.Properties kv.1 s
        | none => trace.BaseTelemetry.Properties := by
  unfold buildTraceStep
  split
  · rfl
  · cases kv.2 <;> simp [propertyString, TraceTelemetry.setProperty]

theorem buildTraceStep_Message (trace : TraceTelemetry) (kv : String × Value) :
    (buildTraceStep trace kv).Message = trace.Message ∧
      (buildTraceStep trace kv).SeverityLevel = trace.SeverityLevel := by
  unfold buildTraceStep
  split
  · exact ⟨rfl, rfl⟩
  · cases kv.2 <;> simp [TraceTelemetry.setProperty]

theorem foldl_buildTraceStep_Message (data : GoMap Value) (trace : TraceTelemetry) :
    (data.foldl buildTraceStep trace).Message = trace.Message ∧
      (data.foldl buildTraceStep trace).SeverityLevel = trace.SeverityLevel := by
  induction data generalizing trace with
  | nil => exact ⟨rfl, rfl⟩
  | cons hd tl ih =>
    rw [List.foldl_cons]
    exact ⟨(ih _).1.trans (buildTraceStep_Message trace hd).1,
      (ih _).2.trans (buildTraceStep_Message trace hd).2⟩

/-- The property map after the loop, key by key. -/
theorem foldl_buildTraceStep_get? (data : GoMap Value) (hwf : GoMap.WF data)
    (trace : TraceTelemetry) (k : String) :
    GoMap.get? (data.foldl buildTraceStep trace).BaseTelemetry.Properties k =
      if k = "msg" ∨ k = "level" then GoMap.get? trace.BaseTelemetry.Properties k
      else match (GoMap.get? data k).bind propertyString with
        | some s => some s
        | none => GoMap.get? trace.BaseTelemetry.Properties k := by
  induction data generalizing trace with
  | nil => simp [GoMap.get?]
  | cons hd tl ih =>
    obtain ⟨a, b⟩ := hd
    have hnd : a ∉ tl.map Prod.fst ∧ GoMap.WF tl := by
      simpa [GoMap.WF] using hwf
    rw [List.foldl_cons, ih hnd.2, buildTraceStep_Properties]
    by_cases hk : k = "msg" ∨ k = "level"
    · simp only [hk, if_true]
      by_cases ha : a = "msg" ∨ a = "level"
      · simp [ha]
      · simp only [ha, if_false]
        have hne : a ≠ k := by
          rintro rfl
          exact ha hk
        cases propertyString b <;> simp [GoMap.get?_set, hne]
    · simp only [hk, if_false]
      by_cases hak : a = k
      · subst hak
        simp only [hk, if_false, GoMap.get?_eq_none tl a hnd.1, Option.none_bind, GoMap.get?,
          if_true, Option.some_bind]
        cases propertyString b <;> simp [GoMap.get?_set]
      · simp only [GoMap.get?, hak, if_false]
        by_cases ha : a = "msg" ∨ a = "level"
        · simp [ha]
        · simp only [ha, if_false]
          cases propertyString b <;> simp [GoMap.get?_set, hak]

theorem BuildTrace_ok (data : GoMap Value) (m l : String)
    (hmsg : GoMap.get? data "msg" = some (.str m))
    (hlevel : GoMap.get? data "level" = some (.str l)) :
    BuildTrace data =
      .ok (data.foldl buildTraceStep (NewTraceTelemetry m (levelMapIndex l))) := by
  simp [BuildTrace, dataIndex, hmsg, hlevel, assertString]

/-! ## Lemmas on decimal strings -/

theorem toDigitsCore_length_ge (b fuel n : Nat) (ds : List Char) :
    ds.length ≤ (Nat.toDigitsCore b fuel n ds).length := by
  induction fuel generalizing n ds with
  | zero => simp [Nat.toDigitsCore]
  | succ f ih =>
    simp only [Nat.toDigitsCore]
    split
    · simp
    · exact Nat.le_trans (by simp) (ih _ _)

theorem toDigitsCore_succ_length_gt (b fuel n : Nat) (ds : List Char) :
    ds.length < (Nat.toDigitsCore b (fuel + 1) n ds).length := by
  simp only [Nat.toDigitsCore]
  split
  · simp
  · exact Nat.lt_of_lt_of_le (by simp) (toDigitsCore_length_ge _ _ _ _)

theorem repr_length_pos (n : Nat) : 1 ≤ (Nat.repr n).length := by
  simp only [Nat.repr, Nat.toDigits, List.asString, String.length]
  have h := toDigitsCore_succ_length_gt 10 n n []
  simpa using h

theorem repr_length_two_le (n : Nat) (h : 10 ≤ n) : 2 ≤ (Nat.repr n).length := by
  simp only [Nat.repr, Nat.toDigits, List.asString, String.length]
  obtain ⟨f, rfl⟩ : ∃ f, n = f + 1 := ⟨n - 1, by omega⟩
  have hdiv : (f + 1) / 10 ≠ 0 := by omega
  rw [Nat.toDigitsCore]
  simp only [hdiv, if_false]
  have h := toDigitsCore_succ_length_gt 10 f ((f + 1) / 10) [Nat.digitChar ((f + 1) % 10)]
  simpa using h

/-- The conversion `string(val)` never yields the decimal string of `val`. -/
theorem stringOfInt_ne_decimal (val : Int) : stringOfInt val ≠ toString val := by
  intro heq
  have hlen : (stringOfInt val).length = 1 := by
    unfold stringOfInt
    split <;> rfl
  rw [heq] at hlen
  cases val with
  | ofNat n =>
    change (Nat.repr n).length = 1 at hlen
    by_cases h10 : 10 ≤ n
    · have := repr_length_two_le n h10
      omega
    · have hn : n < 10 := by omega
      clear hlen
      revert heq
      interval_cases n <;> decide
  | negSucc n =>
    change ("-" ++ Nat.repr (n + 1)).length = 1 at hlen
    rw [String.length_append] at hlen
    have := repr_length_pos (n + 1)
    have h1 : ("-" : String).length = 1 := rfl
    omega

/-! ## The level filter and the level encoder -/

/-- Claim C1. For every threshold and every candidate among the seven levels of
`defaultLevels` (listed from most to least severe), the filter built from the
threshold accepts the candidate exactly when the candidate stands no later in
the list than the threshold; so for a level A strictly more severe than a
level B, the filter of B accepts A and B, and the filter of A accepts A and
rejects B. -/
theorem minLogLevelFilter_accepts_iff_at_least_as_severe :
    defaultLevels =
        [FatalLevel, PanicLevel, DPanicLevel, ErrorLevel, WarnLevel, InfoLevel, DebugLevel] ∧
      (∀ i j : Fin defaultLevels.length,
        minLogLevelFilter (defaultLevels.get i) (defaultLevels.get j) = true ↔ j ≤ i) ∧
      (∀ a b : Fin defaultLevels.length, a < b →
        minLogLevelFilter (defaultLevels.get b) (defaultLevels.get a) = true ∧
        minLogLevelFilter (defaultLevels.get b) (defaultLevels.get b) = true ∧
        minLogLevelFilter (defaultLevels.get a) (defaultLevels.get a) = true ∧
        minLogLevelFilter (defaultLevels.get a) (defaultLevels.get b) = false) := by
  refine ⟨rfl, ?_, ?_⟩ <;> decide

/-- Witness of C1: error is more severe than info. -/
theorem minLogLevelFilter_accepts_iff_at_least_as_severe_witness :
    minLogLevelFilter InfoLevel ErrorLevel = true ∧
      minLogLevelFilter InfoLevel InfoLevel = true ∧
      minLogLevelFilter ErrorLevel ErrorLevel = true ∧
      minLogLevelFilter ErrorLevel InfoLevel = false :=
  minLogLevelFilter_accepts_iff_at_least_as_severe.2.2 ⟨3, by decide⟩ ⟨5, by decide⟩ (by decide)

/-- Claim C5. For each of the seven levels the encoder appends exactly one
string to whatever the encoder already holds, and `levelMap` has that string
as a key, bound to the severity of the mapping table: debug to Verbose, info
to Information, warn to Warning, error to Error, dpanic, panic and fatal to
Critical. -/
theorem appInsightsLevelEncoder_levelMap_roundtrip (enc : List String) :
    (∃ s, appInsightsLevelEncoder DebugLevel enc = enc ++ [s] ∧
        GoMap.get? levelMap s = some Verbose ∧ levelMapIndex s = Verbose) ∧
    (∃ s, appInsightsLevelEncoder InfoLevel enc = enc ++ [s] ∧
        GoMap.get? levelMap s = some Information ∧ levelMapIndex s = Information) ∧
    (∃ s, appInsightsLevelEncoder WarnLevel enc = enc ++ [s] ∧
        GoMap.get? levelMap s = some Warning ∧ levelMapIndex s = Warning) ∧
    (∃ s, appInsightsLevelEncoder ErrorLevel enc = enc ++ [s] ∧
        GoMap.get? levelMap s = some Error ∧ levelMapIndex s = Error) ∧
    (∃ s, appInsightsLevelEncoder DPanicLevel enc = enc ++ [s] ∧
        GoMap.get? levelMap s = some Critical ∧ levelMapIndex s = Critical) ∧
    (∃ s, appInsightsLevelEncoder PanicLevel enc = enc ++ [s] ∧
        GoMap.get? levelMap s = some Critical ∧ levelMapIndex s = Critical) ∧
    (∃ s, appInsightsLevelEncoder FatalLevel enc = enc ++ [s] ∧
        GoMap.get? levelMap s = some Critical ∧ levelMapIndex s = Critical) :=
  ⟨⟨"Verbose", rfl, rfl, rfl⟩, ⟨"Information", rfl, rfl, rfl⟩, ⟨"Warning", rfl, rfl, rfl⟩,
    ⟨"Error", rfl, rfl, rfl⟩, ⟨"Critical", rfl, rfl, rfl⟩, ⟨"Critical", rfl, rfl, rfl⟩,
    ⟨"Critical", rfl, rfl, rfl⟩⟩

/-! ## Construction -/

/-- Claim C8. `NewAppInsightsCore` returns an error exactly when the
instrumentation key is the empty string; it then returns no core (hence no
sink) and no option, and for any other key it returns a core and a nil error,
whatever the other fields and the extra fields hold. -/
theorem NewAppInsightsCore_fails_iff_key_empty (conf : Config) (fs : List Field) :
    ((NewAppInsightsCore conf fs).err ≠ none ↔ conf.InstrumentationKey = "") ∧
      (if conf.InstrumentationKey = "" then
        (NewAppInsightsCore conf fs).core.isNone = true ∧
          (NewAppInsightsCore conf fs).option.isNone = true ∧
          (NewAppInsightsCore conf fs).err.isSome = true
      else
        (NewAppInsightsCore conf fs).core.isSome = true ∧
          (NewAppInsightsCore conf fs).err = none) := by
  by_cases h : conf.InstrumentationKey = "" <;> simp [NewAppInsightsCore, h]

/-- Claim C9, counterexample. With the threshold left at the zero value of
`zapcore.Level` and a key present, the core that is built rejects the debug level. -/
theorem unset_MinLogLevel_rejects_debug :
    ∃ core,
      (NewAppInsightsCore
          { InstrumentationKey := "ikey", EndpointURL := "", MinLogLevel := Level.zero,
            MaxBatchSize := 0, MaxBatchInterval := 0 } []).core = some core ∧
        core.LevelEnabler DebugLevel = false :=
  ⟨_, rfl, rfl⟩

/-- Claim C9, amended. With the threshold left at the zero value of
`zapcore.Level`, which is the info level, the filter of the core that
`NewAppInsightsCore` builds accepts each of the seven levels except debug. -/
theorem unset_MinLogLevel_accepts_info_and_above (conf : Config) (fs : List Field) (core : Core)
    (hmin : conf.MinLogLevel = Level.zero)
    (hcore : (NewAppInsightsCore conf fs).core = some core) :
    Level.zero = InfoLevel ∧
      ∀ i : Fin defaultLevels.length,
        core.LevelEnabler (defaultLevels.get i) = true ↔ defaultLevels.get i ≠ DebugLevel := by
  have hen : core.LevelEnabler = minLogLevelFilter Level.zero := by
    unfold NewAppInsightsCore at hcore
    by_cases hk : conf.InstrumentationKey = ""
    · simp [hk] at hcore
    · simp only [hk, if_false, Option.some.injEq] at hcore
      rw [← hcore, hmin]
  rw [hen]
  exact ⟨rfl, by decide⟩

/-- Witness of C9 amended: a configuration that sets only the key. -/
theorem unset_MinLogLevel_accepts_info_and_above_witness :
    Level.zero = InfoLevel ∧
      ∀ i : Fin defaultLevels.length,
        minLogLevelFilter Level.zero (defaultLevels.get i) = true ↔
          defaultLevels.get i ≠ DebugLevel :=
  unset_MinLogLevel_accepts_info_and_above
    { InstrumentationKey := "ikey", EndpointURL := "", MinLogLevel := Level.zero,
      MaxBatchSize := 0, MaxBatchInterval := 0 } []
    { enc := { NewProductionEncoderConfig with EncodeLevel := some appInsightsLevelEncoder },
      out := New { client := NewTelemetryClientFromConfig (NewTelemetryConfiguration "ikey"),
                   async := false, filters := [] },
      LevelEnabler := minLogLevelFilter Level.zero }
    rfl rfl

/-! ## The record translator -/

/-- Claim C2. For a record whose values are all strings, with message `m` and a
level that is the name of one of the five remote severities, `BuildTrace`
returns an event with message `m`, with that severity, and with a property
map that binds a key to a string exactly when the key is neither `msg` nor
`level` and the record binds it to that string. -/
theorem BuildTrace_string_record (data : GoMap Value) (m l : String) (sev : SeverityLevel)
    (hwf : GoMap.WF data)
    (hall : ∀ k v, GoMap.get? data k = some v → ∃ s, v = Value.str s)
    (hmsg : GoMap.get? data "msg" = some (Value.str m))
    (hlevel : GoMap.get? data "level" = some (Value.str l))
    (hsev : sev ∈ [Critical, Error, Warning, Information, Verbose])
    (hname : l = sev.String) :
    ∃ trace, BuildTrace data = .ok trace ∧ trace.Message = m ∧ trace.SeverityLevel = sev ∧
      ∀ k s, GoMap.get? trace.BaseTelemetry.Properties k = some s ↔
        (k ≠ "msg" ∧ k ≠ "level" ∧ GoMap.get? data k = some (Value.str s)) := by
  refine ⟨_, BuildTrace_ok data m l hmsg hlevel, ?_, ?_, ?_⟩
  · exact (foldl_buildTraceStep_Message data _).1
  · rw [(foldl_buildTraceStep_Message data _).2, hname]
    simp only [List.mem_cons, List.mem_singleton, List.not_mem_nil, or_false] at hsev
    rcases hsev with h | h | h | h | h <;> subst h <;> rfl
  · intro k s
    rw [foldl_buildTraceStep_get? data hwf]
    by_cases hk : k = "msg" ∨ k = "level"
    · have hk' : ¬ (k ≠ "msg" ∧ k ≠ "level" ∧ GoMap.get? data k = some (Value.str s)) := by
        rintro ⟨h1, h2, -⟩
        exact hk.elim h1 h2
      simp [hk, hk', NewTraceTelemetry, GoMap.get?]
    · have hk1 : k ≠ "msg" := fun h => hk (Or.inl h)
      have hk2 : k ≠ "level" := fun h => hk (Or.inr h)
      simp only [hk, if_false, NewTraceTelemetry, GoMap.get?, ne_eq, hk1, hk2, not_false_eq_true,
        true_and]
      cases hget : GoMap.get? data k with
      | none => simp
      | some v =>
        obtain ⟨s', rfl⟩ := hall k v hget
        simp [propertyString]

/-- Witness of C2: the record of the test `TestBuildTrace`. -/
theorem BuildTrace_string_record_witness :
    ∃ trace,
      BuildTrace [("source", Value.str "test"), ("msg", Value.str "hello world"),
          ("level", Value.str "Information")] = .ok trace ∧
        trace.Message = "hello world" ∧ trace.SeverityLevel = Information ∧
        ∀ k s, GoMap.get? trace.BaseTelemetry.Properties k = some s ↔
          (k ≠ "msg" ∧ k ≠ "level" ∧
            GoMap.get? [("source", Value.str "test"), ("msg", Value.str "hello world"),
              ("level", Value.str "Information")] k = some (Value.str s)) :=
  BuildTrace_string_record
    [("source", Value.str "test"), ("msg", Value.str "hello world"),
      ("level", Value.str "Information")]
    "hello world" "Information" Information (by decide)
    (by
      intro k v h
      simp only [GoMap.get?] at h
      split_ifs at h
      all_goals exact ⟨_, (Option.some.inj h).symm⟩)
    rfl rfl (by decide) rfl

/-- Claim C7, counterexample. A record with a string message, a string level,
the `int64` 3 under `count`, the `uint` 3 under `size` and the `float32` 1.5
under `ratio`: the three values are integers and a floating-point number, the
keys are not reserved, and none of the three is in the property map. -/
theorem BuildTrace_drops_other_numeric_types :
    GoMap.get? [("msg", Value.str "m"), ("level", Value.str "Information"),
        ("count", Value.int64 3), ("size", Value.uint 3),
        ("ratio", Value.float32 (Float64.finite false 3 (-1)))] "count" = some (Value.int64 3) ∧
      GoMap.get? [("msg", Value.str "m"), ("level", Value.str "Information"),
        ("count", Value.int64 3), ("size", Value.uint 3),
        ("ratio", Value.float32 (Float64.finite false 3 (-1)))] "size" = some (Value.uint 3) ∧
      GoMap.get? [("msg", Value.str "m"), ("level", Value.str "Information"),
        ("count", Value.int64 3), ("size", Value.uint 3),
        ("ratio", Value.float32 (Float64.finite false 3 (-1)))] "ratio" =
          some (Value.float32 (Float64.finite false 3 (-1))) ∧
      ∃ trace,
        BuildTrace [("msg", Value.str "m"), ("level", Value.str "Information"),
          ("count", Value.int64 3), ("size", Value.uint 3),
          ("ratio", Value.float32 (Float64.finite false 3 (-1)))] = .ok trace ∧
        trace.BaseTelemetry.Properties = [] ∧
        GoMap.get? trace.BaseTelemetry.Properties "count" = none ∧
        GoMap.get? trace.BaseTelemetry.Properties "size" = none ∧
        GoMap.get? trace.BaseTelemetry.Properties "ratio" = none :=
  ⟨rfl, rfl, rfl, _, rfl, rfl, rfl, rfl, rfl⟩

/-- Claim C7, amended. For a record with a string message and a string level, a
key is bound in the property map that `BuildTrace` returns exactly when it is
neither `msg` nor `level` and the dynamic type of its value is exactly
`string`, `int` or `float64`, the three cases of the type switch; a key whose
value has any other dynamic type (boolean, nil, nested object, array, and
also `int64`, `uint`, `float32` or any remaining type) is absent. -/
theorem BuildTrace_property_key_iff_exact_type (data : GoMap Value) (m l : String)
    (hwf : GoMap.WF data)
    (hmsg : GoMap.get? data "msg" = some (Value.str m))
    (hlevel : GoMap.get? data "level" = some (Value.str l)) :
    ∃ trace, BuildTrace data = .ok trace ∧
      (∀ k, (GoMap.get? trace.BaseTelemetry.Properties k).isSome = true ↔
        (k ≠ "msg" ∧ k ≠ "level" ∧
          ∃ v, GoMap.get? data k = some v ∧
            ((∃ s, v = Value.str s) ∨ (∃ n, v = Value.int n) ∨
              (∃ f, v = Value.float64 f)))) ∧
      (∀ k v, GoMap.get? data k = some v →
        (v = Value.null ∨ (∃ b, v = Value.bool b) ∨ (∃ xs, v = Value.array xs) ∨
          (∃ kvs, v = Value.object kvs) ∨ (∃ n, v = Value.int64 n) ∨
          (∃ n, v = Value.uint n) ∨ (∃ f, v = Value.float32 f) ∨
          (∃ t, v = Value.other t)) →
        GoMap.get? trace.BaseTelemetry.Properties k = none) := by
  have hiff : ∀ k, (GoMap.get? (data.foldl buildTraceStep
        (NewTraceTelemetry m (levelMapIndex l))).BaseTelemetry.Properties k).isSome = true ↔
      (k ≠ "msg" ∧ k ≠ "level" ∧
        ∃ v, GoMap.get? data k = some v ∧
          ((∃ s, v = Value.str s) ∨ (∃ n, v = Value.int n) ∨
            (∃ f, v = Value.float64 f))) := by
    intro k
    rw [foldl_buildTraceStep_get? data hwf]
    by_cases hk : k = "msg" ∨ k = "level"
    · have hk' : ¬ (k ≠ "msg" ∧ k ≠ "level" ∧
          ∃ v, GoMap.get? data k = some v ∧
            ((∃ s, v = Value.str s) ∨ (∃ n, v = Value.int n) ∨
              (∃ f, v = Value.float64 f))) := by
        rintro ⟨h1, h2, -⟩
        exact hk.elim h1 h2
      simp [hk, hk', NewTraceTelemetry, GoMap.get?]
    · have hk1 : k ≠ "msg" := fun h => hk (Or.inl h)
      have hk2 : k ≠ "level" := fun h => hk (Or.inr h)
      simp only [hk, if_false, NewTraceTelemetry, GoMap.get?, ne_eq, hk1, hk2,
        not_false_eq_true, true_and]
      cases hget : GoMap.get? data k with
      | none => simp
      | some v => cases v <;> simp [propertyString]
  refine ⟨_, BuildTrace_ok data m l hmsg hlevel, hiff, ?_⟩
  intro k v hget hv
  rw [← Option.not_isSome_iff_eq_none, hiff k]
  rintro ⟨-, -, w, hw, hty⟩
  rw [hget] at hw
  cases Option.some.inj hw
  rcases hv with h | ⟨_, h⟩ | ⟨_, h⟩ | ⟨_, h⟩ | ⟨_, h⟩ | ⟨_, h⟩ | ⟨_, h⟩ | ⟨_, h⟩ <;>
    subst h <;> rcases hty with ⟨_, h⟩ | ⟨_, h⟩ | ⟨_, h⟩ <;> cases h

/-- Witness of C7 amended: a record with a string, an `int`, a `float64`, a
boolean, a null, a nested object, an array, an `int64`, a `uint`, a `float32`
and a `json.Number` next to the two reserved keys. -/
theorem BuildTrace_property_key_iff_exact_type_witness :
    ∃ trace,
      BuildTrace [("msg", Value.str "m"), ("level", Value.str "Error"), ("s", Value.str "x"),
          ("i", Value.int 7), ("f", Value.float64 (Float64.finite false 3 (-1))),
          ("b", Value.bool true), ("z", Value.null), ("o", Value.object [("a", Value.null)]),
          ("l", Value.array [Value.int 1]), ("i64", Value.int64 3), ("u", Value.uint 3),
          ("f32", Value.float32 (Float64.finite false 3 (-1))),
          ("num", Value.other "json.Number")] = .ok trace ∧
        (∀ k, (GoMap.get? trace.BaseTelemetry.Properties k).isSome = true ↔
          (k ≠ "msg" ∧ k ≠ "level" ∧
            ∃ v, GoMap.get? [("msg", Value.str "m"), ("level", Value.str "Error"),
                ("s", Value.str "x"), ("i", Value.int 7),
                ("f", Value.float64 (Float64.finite false 3 (-1))), ("b", Value.bool true),
                ("z", Value.null), ("o", Value.object [("a", Value.null)]),
                ("l", Value.array [Value.int 1]), ("i64", Value.int64 3), ("u", Value.uint 3),
                ("f32", Value.float32 (Float64.finite false 3 (-1))),
                ("num", Value.other "json.Number")] k = some v ∧
              ((∃ s, v = Value.str s) ∨ (∃ n, v = Value.int n) ∨
                (∃ f, v = Value.float64 f)))) ∧
        (∀ k v, GoMap.get? [("msg", Value.str "m"), ("level", Value.str "Error"),
              ("s", Value.str "x"), ("i", Value.int 7),
              ("f", Value.float64 (Float64.finite false 3 (-1))), ("b", Value.bool true),
              ("z", Value.null), ("o", Value.object [("a", Value.null)]),
              ("l", Value.array [Value.int 1]), ("i64", Value.int64 3), ("u", Value.uint 3),
              ("f32", Value.float32 (Float64.finite false 3 (-1))),
              ("num", Value.other "json.Number")] k = some v →
          (v = Value.null ∨ (∃ b, v = Value.bool b) ∨ (∃ xs, v = Value.array xs) ∨
            (∃ kvs, v = Value.object kvs) ∨ (∃ n, v = Value.int64 n) ∨
            (∃ n, v = Value.uint n) ∨ (∃ f, v = Value.float32 f) ∨
            (∃ t, v = Value.other t)) →
          GoMap.get? trace.BaseTelemetry.Properties k = none) :=
  BuildTrace_property_key_iff_exact_type _ "m" "Error" (by decide) rfl rfl

/-- Claim C10. When the record has no `msg` key, or binds it to a value that is
not a string, `BuildTrace` returns no event: the type assertion on the message
panics, whatever else the record holds. -/
theorem BuildTrace_panics_without_string_msg (data : GoMap Value)
    (hmsg : ∀ s, GoMap.get? data "msg" ≠ some (Value.str s)) :
    (∃ e, BuildTrace data = .error e) ∧ ∀ trace, BuildTrace data ≠ .ok trace := by
  have h : ∃ e, BuildTrace data = .error e := by
    unfold BuildTrace dataIndex
    cases hget : GoMap.get? data "msg" with
    | none => exact ⟨_, rfl⟩
    | some v =>
      cases v with
      | str s => exact absurd hget (hmsg s)
      | _ => exact ⟨_, rfl⟩
  obtain ⟨e, he⟩ := h
  exact ⟨⟨e, he⟩, fun trace ht => by rw [he] at ht; cases ht⟩

/-- Witness of C10: a record whose `msg` is a number. -/
theorem BuildTrace_panics_without_string_msg_witness :
    (∃ e, BuildTrace [("msg", Value.int 5), ("level", Value.str "Error"),
        ("source", Value.str "test")] = .error e) ∧
      ∀ trace, BuildTrace [("msg", Value.int 5), ("level", Value.str "Error"),
        ("source", Value.str "test")] ≠ .ok trace :=
  BuildTrace_panics_without_string_msg _ (by
    intro s h
    simp [GoMap.get?] at h)

/-- Claim C4, what the code does. For a key other than `msg` and `level` that
the record binds to the `int` `n`, the property map of the event binds the key
to `string(n)`, the one-character string of the code point `n`, and that is
never the decimal string of `n`. -/
theorem BuildTrace_int_property (data : GoMap Value) (m l k : String) (n : Int)
    (hwf : GoMap.WF data)
    (hmsg : GoMap.get? data "msg" = some (Value.str m))
    (hlevel : GoMap.get? data "level" = some (Value.str l))
    (hk : k ≠ "msg" ∧ k ≠ "level")
    (hget : GoMap.get? data k = some (Value.int n)) :
    ∃ trace, BuildTrace data = .ok trace ∧
      GoMap.get? trace.BaseTelemetry.Properties k = some (stringOfInt n) ∧
      GoMap.get? trace.BaseTelemetry.Properties k ≠ some (toString n) := by
  have hprop : GoMap.get?
      (data.foldl buildTraceStep (NewTraceTelemetry m (levelMapIndex l))).BaseTelemetry.Properties
      k = some (stringOfInt n) := by
    rw [foldl_buildTraceStep_get? data hwf]
    simp [hk.1, hk.2, hget, propertyString]
  refine ⟨_, BuildTrace_ok data m l hmsg hlevel, hprop, ?_⟩
  rw [hprop]
  intro h
  exact stringOfInt_ne_decimal n (Option.some.inj h)

/-- Witness of C4: the record of the specification's scenario, with the `int` 3
under `count`. The property map is `source -> "test"`, `count -> "\x03"`. -/
theorem BuildTrace_int_property_witness :
    ∃ trace,
      BuildTrace [("msg", Value.str "m"), ("level", Value.str "Information"),
          ("source", Value.str "test"), ("count", Value.int 3)] = .ok trace ∧
        GoMap.get? trace.BaseTelemetry.Properties "count" = some (stringOfInt 3) ∧
        GoMap.get? trace.BaseTelemetry.Properties "count" ≠ some (toString (3 : Int)) :=
  BuildTrace_int_property
    [("msg", Value.str "m"), ("level", Value.str "Information"),
      ("source", Value.str "test"), ("count", Value.int 3)]
    "m" "Information" "count" 3 (by decide) rfl rfl (by decide) rfl

/-- Claim C6, counterexample. A record with a string message and no `level`
key: the type assertion on the level panics. -/
theorem BuildTrace_missing_level_panics :
    GoMap.get? [("msg", Value.str "m"), ("source", Value.str "test")] "msg" =
        some (Value.str "m") ∧
      GoMap.get? [("msg", Value.str "m"), ("source", Value.str "test")] "level" = none ∧
      BuildTrace [("msg", Value.str "m"), ("source", Value.str "test")] =
        .error "interface conversion: interface \x7b\x7d is nil, not string" :=
  ⟨rfl, rfl, rfl⟩

/-- Claim C6, amended. For a record with a string message: when the level is a
string that is not one of the five remote names, `BuildTrace` returns an event
whose severity is the zero value of the severity type (which is `Verbose`);
when the record has no `level` key, `BuildTrace` panics. -/
theorem BuildTrace_unrecognized_level (data : GoMap Value) (m : String)
    (hmsg : GoMap.get? data "msg" = some (Value.str m)) :
    (∀ l, GoMap.get? data "level" = some (Value.str l) →
        l ∉ ["Critical", "Error", "Warning", "Information", "Verbose"] →
        ∃ trace, BuildTrace data = .ok trace ∧ trace.Message = m ∧
          trace.SeverityLevel = SeverityLevel.zero) ∧
      (GoMap.get? data "level" = none → ∃ e, BuildTrace data = .error e) := by
  constructor
  · intro l hlevel hl
    refine ⟨_, BuildTrace_ok data m l hmsg hlevel, (foldl_buildTraceStep_Message data _).1, ?_⟩
    rw [(foldl_buildTraceStep_Message data _).2]
    simp only [List.mem_cons, List.mem_singleton, List.not_mem_nil, or_false, not_or] at hl
    obtain ⟨h1, h2, h3, h4, h5⟩ := hl
    simp [NewTraceTelemetry, levelMapIndex, levelMap, GoMap.get?, Ne.symm h1, Ne.symm h2,
      Ne.symm h3, Ne.symm h4, Ne.symm h5]
  · intro hnone
    exact ⟨_, by simp [BuildTrace, dataIndex, hmsg, hnone, assertString]; rfl⟩

/-- Witness of C6 amended: the level `"info"`, zap's own lower-case name. -/
theorem BuildTrace_unrecognized_level_witness :
    ∃ trace,
      BuildTrace [("msg", Value.str "m"), ("level", Value.str "info")] = .ok trace ∧
        trace.Message = "m" ∧ trace.SeverityLevel = SeverityLevel.zero :=
  (BuildTrace_unrecognized_level [("msg", Value.str "m"), ("level", Value.str "info")] "m"
    rfl).1 "info" rfl (by decide)

/-! ## The sink -/

/-- Claim C3. Whenever the input decodes to a record with a string message and
a string level, `Write` returns the number of bytes of the decoded message as
its count, together with a nil error, and hands the translated event to the client. -/
theorem Write_returns_message_length
    (unmarshal : List Nat → Except String (GoMap Value)) (p : List Nat)
    (data : GoMap Value) (m l : String)
    (hdecode : unmarshal p = .ok data)
    (hmsg : GoMap.get? data "msg" = some (Value.str m))
    (hlevel : GoMap.get? data "level" = some (Value.str l)) :
    ∃ r, Write unmarshal p = .ok r ∧ r.n = len m ∧ r.err = none ∧
      BuildTrace data = .ok r.tracked := by
  have hbt := BuildTrace_ok data m l hmsg hlevel
  refine ⟨_, by simp only [Write, hdecode, hbt]; rfl, ?_, rfl, hbt⟩
  simp only [(foldl_buildTraceStep_Message data _).1, NewTraceTelemetry]

/-- Witness of C3: the input of the test `TestWriteIntegration`, 64 bytes long,
decoded by the reference decoder; the count is 11, the length of `hello world`. -/
theorem Write_returns_message_length_witness :
    (bytesOf "\x7b\"source\": \"test\", \"msg\": \"hello world\", \"level\": \"Information\"\x7d").length
        = 64 ∧
      ∃ r, Write jsonUnmarshal
          (bytesOf "\x7b\"source\": \"test\", \"msg\": \"hello world\", \"level\": \"Information\"\x7d")
            = .ok r ∧
        r.n = 11 ∧ r.err = none ∧
        BuildTrace [("source", Value.str "test"), ("msg", Value.str "hello world"),
          ("level", Value.str "Information")] = .ok r.tracked :=
  ⟨by decide,
    Write_returns_message_length jsonUnmarshal
      (bytesOf "\x7b\"source\": \"test\", \"msg\": \"hello world\", \"level\": \"Information\"\x7d")
      [("source", Value.str "test"), ("msg", Value.str "hello world"),
        ("level", Value.str "Information")]
      "hello world" "Information" rfl rfl rfl⟩

/-- The scenario of C4 through `Write`: the JSON number 3 is decoded as a
`float64`, so the property `count` is `3.000000`. -/
theorem Write_number_property_is_fixed_point :
    ∃ r, Write jsonUnmarshal
        (bytesOf "\x7b\"msg\": \"m\", \"level\": \"Information\", \"source\": \"test\", \"count\": 3\x7d")
          = .ok r ∧
      r.tracked.BaseTelemetry.Properties = [("source", "test"), ("count", "3.000000")] :=
  ⟨{ n := 1, err := none,
      tracked := { BaseTelemetry := { Tags := [],
                                      Properties := [("source", "test"), ("count", "3.000000")] },
                   Message := "m", SeverityLevel := Information } },
    rfl, rfl⟩

end ZapAppInsights
